import Mathlib

/-!
# httpdecompressor: dispatch on `Content-Encoding` and the consumption helpers

A shallow embedding of `httpdecompressor.go`.

Go values with mutable state (the response body, the readers the codec
libraries allocate, the caller's `io.Writer`, the file system) live in an
explicit `World`; a Go function that performs effects is a function from the
world to its result and the next world.  An `io.ReadCloser` value is a
`Stream`: a reference to the state it reads, not a copy of it.

The seven codec packages and the parts of `io`, `os` and `net/http` the file
calls are not part of the repository.  The codec packages are taken as an
arbitrary `CodecLib`; the standard library calls follow their documented
behaviour.
-/

namespace httpdecompressor

/-! ## Errors -/

/-- Error values whose type is declared outside this package: the sentinels of
package `io` the loops compare against or produce, and anything else a codec,
the body, a sink or the operating system reports. -/
inductive ForeignError where
  | EOF
  | ErrShortWrite
  | errInvalidWrite
  | other (msg : String)
  deriving DecidableEq, Repr

/-- A Go `error` value: `*UnsupportedContentEncodingError` of this package, or a
value of a type from elsewhere. -/
inductive Error where
  | UnsupportedContentEncodingError (ContentEncoding : String)
  | foreign (e : ForeignError)
  deriving DecidableEq, Repr

/-- The method `(*UnsupportedContentEncodingError).Error`, on the field of its
receiver. -/
def UnsupportedContentEncodingError.Error (ContentEncoding : String) : String :=
  "Unsupported content encoding: " ++ ContentEncoding

/-- The constant `io.EOF` as an `error`. -/
def io.EOF : Error := .foreign .EOF

/-! ## The raw source -/

/-- State of a raw source (an `io.ReadCloser` handed in by the caller, such as a
response body).  `pending` are the chunks successive reads deliver, `final` is
the error every read returns once they are used up (`io.EOF` for a source
that ends normally), `closeErr` is what `Close` returns.  `reads` and `closes`
count the `Read` and `Close` calls the source has received. -/
structure RawSource where
  pending : List (List UInt8)
  final : Error
  closeErr : Option Error
  reads : Nat
  closes : Nat
  deriving DecidableEq, Repr

/-- One `Read(p)` with `len(p) = n` on a raw source: at most `n` bytes of the
next chunk, or the final error when no chunk is left. -/
def RawSource.Read (n : Nat) (b : RawSource) : (List UInt8 × Option Error) × RawSource :=
  match b.pending with
  | [] => (([], some b.final), { b with reads := b.reads + 1 })
  | c :: rest =>
      if c.length ≤ n then
        ((c, none), { b with pending := rest, reads := b.reads + 1 })
      else
        ((c.take n, none), { b with pending := c.drop n :: rest, reads := b.reads + 1 })

/-- One `Close()` on a raw source. -/
def RawSource.Close (b : RawSource) : Option Error × RawSource :=
  (b.closeErr, { b with closes := b.closes + 1 })

/-! ## The codec libraries -/

/-- The seven decoders the package imports. -/
inductive Codec where
  | gzip | flate | zlib | zstd | snappy | brotli | lz4
  deriving DecidableEq, Repr

/-- The codec packages, as far as the file uses them.  `S` is the state of the
reader a constructor allocates.  Every function may read (or otherwise act on)
the raw source it wraps, so it maps the codec state and the raw source to their
next values.  The constructors of gzip, zlib and zstd return an error besides
the reader; those of flate, snappy, brotli and lz4 have no error result.  The
error of a constructor is any Go `error`: one of its own package, or the error
a read on the raw source gave it, handed on as it is.  `read` is the `Read`
method of a codec reader, `close` the `Close` method of the readers that have one with the
`io.Closer` signature (gzip, flate, zlib). -/
structure CodecLib (S : Type) where
  gzipNewReader : S → RawSource → Option Error × S × RawSource
  flateNewReader : S → RawSource → S × RawSource
  zlibNewReader : S → RawSource → Option Error × S × RawSource
  zstdNewReader : S → RawSource → Option Error × S × RawSource
  snappyNewReader : S → RawSource → S × RawSource
  brotliNewReader : S → RawSource → S × RawSource
  lz4NewReader : S → RawSource → S × RawSource
  read : Codec → Nat → S → RawSource → (List UInt8 × Option Error) × S × RawSource
  close : Codec → S → RawSource → Option Error × S × RawSource

/-! ## Sinks and files -/

/-- State of the caller's `io.Writer`: the bytes written so far, how many more
bytes it accepts (`none`: no limit) and the error a write reports once that
room is used up. -/
structure Sink where
  written : List UInt8
  room : Option Nat
  failure : Error
  deriving DecidableEq, Repr

/-- One `Write(p)` on a sink: the number of bytes accepted and the error. -/
def Sink.Write (p : List UInt8) (s : Sink) : (Nat × Option Error) × Sink :=
  match s.room with
  | none => ((p.length, none), { s with written := s.written ++ p })
  | some k =>
      if p.length ≤ k then
        ((p.length, none), { s with written := s.written ++ p, room := some (k - p.length) })
      else
        ((k, some s.failure), { s with written := s.written ++ p.take k, room := some 0 })

/-- A regular file: permission bits and content. -/
structure FileData where
  mode : Nat
  data : List UInt8
  deriving DecidableEq, Repr

/-- The file system as `ReadIntoFile` sees it.  `files` maps a path to the file
there; `openErrs` lists the paths at which `os.OpenFile` fails and the error
it returns; `room` and `failure` bound the writes as for a `Sink`; `handle` is
the path of the file the open handle refers to and `closes` counts the `Close`
calls on that handle. -/
structure FileSystem where
  files : List (String × FileData)
  openErrs : List (String × Error)
  room : Option Nat
  failure : Error
  handle : Option String
  closes : Nat
  deriving DecidableEq, Repr

/-- Replace (or add) the file at `name`. -/
def setFile (name : String) (f : FileData) : List (String × FileData) → List (String × FileData)
  | [] => [(name, f)]
  | (k, v) :: rest => if k = name then (name, f) :: rest else (k, v) :: setFile name f rest

/-- The call `os.OpenFile(name, os.O_CREATE|os.O_WRONLY|os.O_TRUNC, perm)`: on
failure the error and an unchanged file system; on success the file exists
with length zero (created with mode `perm`, or truncated keeping its mode) and
a fresh handle refers to it. -/
def os.OpenFile (name : String) (perm : Nat) (fs : FileSystem) : Option Error × FileSystem :=
  match fs.openErrs.lookup name with
  | some err => (some err, fs)
  | none =>
      let mode := match fs.files.lookup name with
        | some old => old.mode
        | none => perm
      (none, { fs with files := setFile name { mode := mode, data := [] } fs.files,
                       handle := some name, closes := 0 })

/-- One `Write(p)` on the open file handle. -/
def FileSystem.Write (p : List UInt8) (fs : FileSystem) : (Nat × Option Error) × FileSystem :=
  match fs.handle with
  | none => ((0, some fs.failure), fs)
  | some name =>
      let old : FileData := (fs.files.lookup name).getD { mode := 0, data := [] }
      match fs.room with
      | none =>
          ((p.length, none), { fs with files := setFile name { old with data := old.data ++ p } fs.files })
      | some k =>
          if p.length ≤ k then
            ((p.length, none),
              { fs with files := setFile name { old with data := old.data ++ p } fs.files,
                        room := some (k - p.length) })
          else
            ((k, some fs.failure),
              { fs with files := setFile name { old with data := old.data ++ p.take k } fs.files,
                        room := some 0 })

/-- One `Close()` on the open file handle. -/
def FileSystem.Close (fs : FileSystem) : Option Error × FileSystem :=
  (none, { fs with closes := fs.closes + 1 })

/-! ## The world -/

/-- Everything an operation of the package can touch: the raw source, the state
of the codec reader wrapped around it, the caller's sink and the file system.
`closeCalls` counts the `Close` calls made on decoded streams (the values
`ReaderFromReader` returns); no library function can change it. -/
structure World (S : Type) where
  body : RawSource
  codec : S
  sink : Sink
  fs : FileSystem
  closeCalls : Nat
  deriving DecidableEq, Repr

/-- The `io.ReadCloser` values `ReaderFromReader` can return: the raw source
itself, the reader of a codec under its own `Close`, or `io.NopCloser` around
the reader of a codec. -/
inductive Stream where
  | body
  | codec (c : Codec)
  | nopCloser (c : Codec)
  deriving DecidableEq, Repr

/-- The `io.Writer` values handed to `io.CopyBuffer`: the caller's sink or the
file `ReadIntoFile` opened. -/
inductive Writer where
  | sink
  | file
  deriving DecidableEq, Repr

variable {S : Type}

/-- A call `Read(p)` with `len(p) = n` on a stream. -/
def Stream.Read (lib : CodecLib S) (n : Nat) (w : World S) :
    Stream → (List UInt8 × Option Error) × World S
  | .body =>
      let (res, b) := w.body.Read n
      (res, { w with body := b })
  | .codec c =>
      let (res, s, b) := lib.read c n w.codec w.body
      (res, { w with codec := s, body := b })
  | .nopCloser c =>
      let (res, s, b) := lib.read c n w.codec w.body
      (res, { w with codec := s, body := b })

/-- A call `Close()` on a stream: the raw source closes itself, a codec reader runs its
own `Close`, and `io.NopCloser` returns nil without doing anything. -/
def Stream.Close (lib : CodecLib S) (w : World S) : Stream → Option Error × World S
  | .body =>
      let (err, b) := w.body.Close
      (err, { w with body := b, closeCalls := w.closeCalls + 1 })
  | .codec c =>
      let (err, s, b) := lib.close c w.codec w.body
      (err, { w with codec := s, body := b, closeCalls := w.closeCalls + 1 })
  | .nopCloser _ => (none, { w with closeCalls := w.closeCalls + 1 })

/-- A call `Write(p)` on a writer. -/
def Writer.Write (p : List UInt8) (w : World S) : Writer → (Nat × Option Error) × World S
  | .sink =>
      let (res, s) := w.sink.Write p
      (res, { w with sink := s })
  | .file =>
      let (res, fs) := w.fs.Write p
      (res, { w with fs := fs })

/-! ## The package -/

/-- The constant `ACCEPT_ENCODING`. -/
def ACCEPT_ENCODING : String := "gzip, deflate, br, zstd, snappy, zlib, lz4"

/-- The function `ReaderFromReader`; its argument `body` is the raw source of
the world. -/
def ReaderFromReader (lib : CodecLib S) (contentEncoding : String) (w : World S) :
    Except Error Stream × World S :=
  if contentEncoding = "gzip" then
    match lib.gzipNewReader w.codec w.body with
    | (some err, s, b) => (.error err, { w with codec := s, body := b })
    | (none, s, b) => (.ok (.codec .gzip), { w with codec := s, body := b })
  else if contentEncoding = "deflate" then
    match lib.flateNewReader w.codec w.body with
    | (s, b) => (.ok (.codec .flate), { w with codec := s, body := b })
  else if contentEncoding = "zlib" then
    match lib.zlibNewReader w.codec w.body with
    | (some err, s, b) => (.error err, { w with codec := s, body := b })
    | (none, s, b) => (.ok (.codec .zlib), { w with codec := s, body := b })
  else if contentEncoding = "zstd" then
    match lib.zstdNewReader w.codec w.body with
    | (some err, s, b) => (.error err, { w with codec := s, body := b })
    | (none, s, b) => (.ok (.nopCloser .zstd), { w with codec := s, body := b })
  else if contentEncoding = "snappy" then
    match lib.snappyNewReader w.codec w.body with
    | (s, b) => (.ok (.nopCloser .snappy), { w with codec := s, body := b })
  else if contentEncoding = "br" then
    match lib.brotliNewReader w.codec w.body with
    | (s, b) => (.ok (.nopCloser .brotli), { w with codec := s, body := b })
  else if contentEncoding = "lz4" then
    match lib.lz4NewReader w.codec w.body with
    | (s, b) => (.ok (.nopCloser .lz4), { w with codec := s, body := b })
  else
    if contentEncoding ≠ "" ∧ contentEncoding ≠ "identity" then
      (.error (.UnsupportedContentEncodingError contentEncoding), w)
    else
      (.ok .body, w)

/-- The type `http.Header`, a map from canonical keys to their values. -/
abbrev Header := List (String × List String)

/-- The method `Header.Get`: the first value under the key, `""` when there is
none.  The only key the package asks for, `Content-Encoding`, is in canonical
form already. -/
def Header.Get (h : Header) (key : String) : String :=
  match h.lookup key with
  | some (v :: _) => v
  | _ => ""

/-- The part of `*http.Response` the package reads besides the body, which is
the raw source of the world. -/
structure Response where
  Header : Header
  deriving DecidableEq, Repr

/-- The function `Reader`. -/
def Reader (lib : CodecLib S) (response : Response) (w : World S) :
    Except Error Stream × World S :=
  ReaderFromReader lib (response.Header.Get "Content-Encoding") w

/-! ## The loops of package `io` -/

/-- The loop of `io.ReadAll`: `b` is the slice read so far and `cap` its
capacity; each round reads into the free space `b[len(b):cap(b)]`, returns on
the first error (`io.EOF` becoming nil) and grows a full slice (`append` picks
the new capacity, modelled as twice the old one).  `none` when the loop is
still running after `fuel` rounds. -/
def io.ReadAllLoop (lib : CodecLib S) (r : Stream) :
    Nat → List UInt8 → Nat → World S → Option ((List UInt8 × Option Error) × World S)
  | 0, _, _, _ => none
  | fuel + 1, b, cap, w =>
      match r.Read lib (cap - b.length) w with
      | ((p, some err), w1) => some ((b ++ p, if err = io.EOF then none else some err), w1)
      | ((p, none), w1) =>
          io.ReadAllLoop lib r fuel (b ++ p) (if (b ++ p).length = cap then 2 * cap else cap) w1

/-- The function `io.ReadAll`, which starts from `make([]byte, 0, 512)`. -/
def io.ReadAll (lib : CodecLib S) (fuel : Nat) (r : Stream) (w : World S) :
    Option ((List UInt8 × Option Error) × World S) :=
  io.ReadAllLoop lib r fuel [] 512 w

/-- The write half of one round of the copy loop of `io.CopyBuffer`, for the
`nr = len(p)` bytes just read: nothing when `nr = 0`; otherwise one `Write`,
an impossible count becoming `errInvalidWrite` and a short count without
error `io.ErrShortWrite`.  Returns the error that ends the loop (if any), the
number of bytes to add to `written`, and the next world. -/
def io.copyWrite (dst : Writer) (p : List UInt8) (w1 : World S) : Option Error × Nat × World S :=
  if 0 < p.length then
    match dst.Write p w1 with
    | ((nw, ew), w2) =>
        let nw1 := if p.length < nw then 0 else nw
        let ew1 := if p.length < nw then some (ew.getD (.foreign .errInvalidWrite)) else ew
        match ew1 with
        | some e => (some e, nw1, w2)
        | none =>
            if p.length ≠ nw1 then (some (.foreign .ErrShortWrite), nw1, w2)
            else (none, nw1, w2)
  else (none, 0, w1)

/-- The copy loop of `io.CopyBuffer` with a buffer of `n` bytes: read, write
what was read, stop at the first write error, short write or read error
(`io.EOF` becoming nil).  The shortcuts through `io.WriterTo` and
`io.ReaderFrom` move the same bytes and are not modelled.  `none` when the
loop is still running after `fuel` rounds. -/
def io.CopyBufferLoop (lib : CodecLib S) (dst : Writer) (src : Stream) (n : Nat) :
    Nat → Nat → World S → Option ((Nat × Option Error) × World S)
  | 0, _, _ => none
  | fuel + 1, written, w =>
      match src.Read lib n w with
      | ((p, er), w1) =>
          match io.copyWrite dst p w1 with
          | (some e, nw, w2) => some ((written + nw, some e), w2)
          | (none, nw, w2) =>
              match er with
              | some e => some ((written + nw, if e = io.EOF then none else some e), w2)
              | none => io.CopyBufferLoop lib dst src n fuel (written + nw) w2

/-- The function `io.CopyBuffer` with a buffer of `n` bytes. -/
def io.CopyBuffer (lib : CodecLib S) (fuel : Nat) (dst : Writer) (src : Stream) (n : Nat)
    (w : World S) : Option ((Nat × Option Error) × World S) :=
  io.CopyBufferLoop lib dst src n fuel 0 w

/-! ## The consumption helpers -/

/-- The function `ReadAll`.  The deferred `reader.Close()` runs after
`io.ReadAll` has produced the values to return; its own result is dropped. -/
def ReadAll (lib : CodecLib S) (fuel : Nat) (response : Response) (w : World S) :
    Option ((List UInt8 × Option Error) × World S) :=
  match Reader lib response w with
  | (.error err, w1) => some (([], some err), w1)
  | (.ok reader, w1) =>
      match io.ReadAll lib fuel reader w1 with
      | none => none
      | some (res, w2) => some (res, (reader.Close lib w2).2)

/-- The function `ReadIntoWriter`, with its buffer of `1024 * 64` bytes. -/
def ReadIntoWriter (lib : CodecLib S) (fuel : Nat) (response : Response) (writer : Writer)
    (w : World S) : Option (Option Error × World S) :=
  match Reader lib response w with
  | (.error err, w1) => some (some err, w1)
  | (.ok reader, w1) =>
      match io.CopyBuffer lib fuel writer reader (1024 * 64) w1 with
      | none => none
      | some ((_, err), w2) => some (err, (reader.Close lib w2).2)

/-- The function `ReadIntoFile`.  The deferred `file.Close()` runs after
`ReadIntoWriter` has returned. -/
def ReadIntoFile (lib : CodecLib S) (fuel : Nat) (response : Response) (filename : String)
    (perm : Nat) (w : World S) : Option (Option Error × World S) :=
  match os.OpenFile filename perm w.fs with
  | (some err, fs) => some (some err, { w with fs := fs })
  | (none, fs) =>
      match ReadIntoWriter lib fuel response .file { w with fs := fs } with
      | none => none
      | some (err, w1) => some (err, { w1 with fs := w1.fs.Close.2 })

/-! ## Vocabulary of the specification -/

/-- The nine identifiers the specification calls accepted. -/
def acceptedTokens : List String :=
  ["gzip", "deflate", "zlib", "zstd", "snappy", "br", "lz4", "", "identity"]

/-- The error the codec constructor behind an identifier returns on the raw
source: that of `gzip.NewReader`, `zlib.NewReader` or `zstd.NewReader` for
their identifiers, nil for every other identifier, whose branch calls no
constructor that can fail. -/
def constructorError (lib : CodecLib S) (contentEncoding : String) (w : World S) :
    Option Error :=
  if contentEncoding = "gzip" then (lib.gzipNewReader w.codec w.body).1
  else if contentEncoding = "zlib" then (lib.zlibNewReader w.codec w.body).1
  else if contentEncoding = "zstd" then (lib.zstdNewReader w.codec w.body).1
  else none

/-- Split a list of characters at every `", "`; `acc` holds the current token
reversed. -/
def splitCommaSpace : List Char → List Char → List String
  | acc, [] => [String.mk acc.reverse]
  | acc, [c] => [String.mk (c :: acc).reverse]
  | acc, c :: d :: rest =>
      if c = ',' ∧ d = ' ' then String.mk acc.reverse :: splitCommaSpace [] rest
      else splitCommaSpace (c :: acc) (d :: rest)

/-- The tokens of a capability string: its pieces between the separators
`", "`. -/
def tokens (s : String) : List String := splitCommaSpace [] s.toList

/-! ## Sample data -/

/-- A codec library for examples.  Its gzip constructor reads two bytes and
wants the magic number `1f 8b`, zlib reads one byte and wants `78`; when that
read fails, both return the error of the read as it is, as the constructors of
the gzip and zlib packages do.  The zstd constructor accepts anything without
reading; the four other constructors read nothing.  Every reader hands the
bytes of the raw source through, and `Close` leaves the raw source alone, as
the `Close` methods of the gzip, flate and zlib readers are documented to. -/
def sampleLib : CodecLib Unit where
  gzipNewReader := fun s b =>
    match b.Read 2 with
    | ((_, some e), b1) => (some e, s, b1)
    | ((p, none), b1) =>
        if p = [0x1f, 0x8b] then (none, s, b1)
        else (some (.foreign (.other "gzip: invalid header")), s, b1)
  flateNewReader := fun s b => (s, b)
  zlibNewReader := fun s b =>
    match b.Read 1 with
    | ((_, some e), b1) => (some e, s, b1)
    | ((p, none), b1) =>
        if p = [0x78] then (none, s, b1)
        else (some (.foreign (.other "zlib: invalid header")), s, b1)
  zstdNewReader := fun s b => (none, s, b)
  snappyNewReader := fun s b => (s, b)
  brotliNewReader := fun s b => (s, b)
  lz4NewReader := fun s b => (s, b)
  read := fun _ n s b =>
    match b.Read n with
    | (res, b1) => (res, s, b1)
  close := fun _ s b => (none, s, b)

/-- An empty sink without a limit. -/
def sampleSink : Sink := { written := [], room := none, failure := .foreign (.other "sink") }

/-- A file system holding one file `"old.bin"` with three bytes, and refusing
to open `"/forbidden"`. -/
def sampleFS : FileSystem :=
  { files := [("old.bin", { mode := 0o644, data := [1, 2, 3] })],
    openErrs := [("/forbidden", .foreign (.other "permission denied"))],
    room := none, failure := .foreign (.other "disk"), handle := none, closes := 0 }

/-- A world whose raw source delivers `pending` and then `final`; nothing has
been read or closed yet. -/
def sampleWorld (pending : List (List UInt8)) (final : Error) : World Unit :=
  { body := { pending := pending, final := final, closeErr := none, reads := 0, closes := 0 },
    codec := (), sink := sampleSink, fs := sampleFS, closeCalls := 0 }

/-- The sample world with a sink that accepts one more byte and then fails. -/
def sampleWorldFullSink (pending : List (List UInt8)) (final : Error) : World Unit :=
  { sampleWorld pending final with
    sink := { written := [], room := some 1, failure := .foreign (.other "sink full") } }

/-- Number of reads (with a buffer that is not empty) that use up the chunks of
a raw source for certain: every chunk costs its length plus one. -/
def readCost (pending : List (List UInt8)) : Nat :=
  (pending.map (fun c => c.length + 1)).sum

/-- A response with the given `Content-Encoding`. -/
def sampleResponse (enc : String) : Response := { Header := [("Content-Encoding", [enc])] }

/-! ## Dispatch -/

/-- Outside the nine accepted identifiers `ReaderFromReader` takes the default
branch of its switch and fails there, leaving the world as it found it. -/
theorem ReaderFromReader_of_not_accepted (lib : CodecLib S) (s : String) (w : World S)
    (hs : s ∉ acceptedTokens) :
    ReaderFromReader lib s w = (.error (.UnsupportedContentEncodingError s), w) := by
  simp only [acceptedTokens, List.mem_cons, List.mem_singleton, List.not_mem_nil, or_false,
    not_or] at hs
  obtain ⟨h1, h2, h3, h4, h5, h6, h7, h8, h9⟩ := hs
  simp [ReaderFromReader, h1, h2, h3, h4, h5, h6, h7, h8, h9]

/-- On an accepted identifier `ReaderFromReader` builds no error of its own: when
it fails, the error is the one the codec constructor returned. -/
theorem ReaderFromReader_error_of_accepted (lib : CodecLib S) (s : String) (w : World S)
    (hs : s ∈ acceptedTokens) (e : Error) :
    (ReaderFromReader lib s w).1 = .error e ↔ constructorError lib s w = some e := by
  simp only [acceptedTokens, List.mem_cons, List.mem_singleton, List.not_mem_nil, or_false] at hs
  rcases hs with h | h | h | h | h | h | h | h | h <;> subst h
  · rcases hg : lib.gzipNewReader w.codec w.body with ⟨_ | e1, c, b⟩ <;>
      simp [ReaderFromReader, constructorError, hg]
  · simp [ReaderFromReader, constructorError]
  · rcases hg : lib.zlibNewReader w.codec w.body with ⟨_ | e1, c, b⟩ <;>
      simp [ReaderFromReader, constructorError, hg]
  · rcases hg : lib.zstdNewReader w.codec w.body with ⟨_ | e1, c, b⟩ <;>
      simp [ReaderFromReader, constructorError, hg]
  · simp [ReaderFromReader, constructorError]
  · simp [ReaderFromReader, constructorError]
  · simp [ReaderFromReader, constructorError]
  · simp [ReaderFromReader, constructorError]
  · simp [ReaderFromReader, constructorError]

/-- Outside the three identifiers with a fallible constructor there is no
constructor error. -/
theorem constructorError_of_not_accepted (lib : CodecLib S) (s : String) (w : World S)
    (hs : s ∉ acceptedTokens) : constructorError lib s w = none := by
  simp only [acceptedTokens, List.mem_cons, List.mem_singleton, List.not_mem_nil, or_false,
    not_or] at hs
  obtain ⟨h1, _, h3, h4, _⟩ := hs
  simp [constructorError, h1, h3, h4]

/-- Counterexample to C1: `"gzip"` is an accepted token, yet over a body whose
first read fails with `UnsupportedContentEncodingError` carrying `"gzip"` the
gzip constructor hands that error on and `ReaderFromReader` returns no stream
and exactly that error. -/
theorem C1_counterexample_gzip_relays_body_error :
    "gzip" ∈ acceptedTokens ∧
    (ReaderFromReader sampleLib "gzip"
        (sampleWorld [] (.UnsupportedContentEncodingError "gzip"))).1
      = .error (.UnsupportedContentEncodingError "gzip") :=
  ⟨by decide, rfl⟩

/-- Claim C1, amended: `ReaderFromReader` returns no stream and an
`UnsupportedContentEncodingError` carrying exactly the identifier `s` if and
only if `s` is none of the nine accepted tokens (the match is exact and
case-sensitive) or `s` is `gzip`, `zlib` or `zstd` and the constructor of that
codec itself returned this error on the raw source; so `"bogus"`, `"GZIP"`,
`" gzip"` and `"gzip, br"` are all rejected with that same string, and
`""`, `"identity"`, `"deflate"`, `"snappy"`, `"br"` and `"lz4"` never are. -/
theorem C1_unsupported_iff_not_accepted_or_relayed (lib : CodecLib S) (w : World S) :
    (∀ s : String,
      (ReaderFromReader lib s w).1 = .error (.UnsupportedContentEncodingError s)
        ↔ (s ∉ acceptedTokens ∨
            ((s = "gzip" ∨ s = "zlib" ∨ s = "zstd") ∧
              constructorError lib s w = some (.UnsupportedContentEncodingError s)))) ∧
    (∀ s : String, s ∈ ["", "identity", "deflate", "snappy", "br", "lz4"] →
      ∀ e, (ReaderFromReader lib s w).1 ≠ .error e) ∧
    (ReaderFromReader lib "bogus" w).1 = .error (.UnsupportedContentEncodingError "bogus") ∧
    (ReaderFromReader lib "GZIP" w).1 = .error (.UnsupportedContentEncodingError "GZIP") ∧
    (ReaderFromReader lib " gzip" w).1 = .error (.UnsupportedContentEncodingError " gzip") ∧
    (ReaderFromReader lib "gzip, br" w).1
      = .error (.UnsupportedContentEncodingError "gzip, br") := by
  refine ⟨fun s => ⟨fun h => ?_, fun h => ?_⟩, fun s hs e => ?_, ?_, ?_, ?_, ?_⟩
  · by_cases hs : s ∈ acceptedTokens
    · right
      have hc := (ReaderFromReader_error_of_accepted lib s w hs _).1 h
      refine ⟨?_, hc⟩
      by_contra hn
      simp only [not_or] at hn
      simp [constructorError, hn.1, hn.2.1, hn.2.2] at hc
    · exact Or.inl hs
  · rcases h with hs | ⟨hs, hc⟩
    · rw [ReaderFromReader_of_not_accepted lib s w hs]
    · refine (ReaderFromReader_error_of_accepted lib s w ?_ _).2 hc
      rcases hs with h | h | h <;> subst h <;> decide
  · simp only [List.mem_cons, List.mem_singleton, List.not_mem_nil, or_false] at hs
    rcases hs with h | h | h | h | h | h <;> subst h <;> simp [ReaderFromReader]
  all_goals rw [ReaderFromReader_of_not_accepted lib _ w (by decide)]

/-- Witness for C1 as amended: `"Gzip"` differs from the token in case and is
rejected with that string. -/
theorem C1_unsupported_iff_not_accepted_or_relayed_witness :
    (ReaderFromReader sampleLib "Gzip" (sampleWorld [[1, 2, 3]] io.EOF)).1
      = .error (.UnsupportedContentEncodingError "Gzip") :=
  ((C1_unsupported_iff_not_accepted_or_relayed sampleLib (sampleWorld [[1, 2, 3]] io.EOF)).1
    "Gzip").2 (Or.inl (by decide))

/-- The cost of a chunk list, chunk by chunk. -/
theorem readCost_cons (c : List UInt8) (rest : List (List UInt8)) :
    readCost (c :: rest) = c.length + 1 + readCost rest := by
  simp [readCost]

/-- On the raw source itself the loop of `io.ReadAll` ends within `readCost`
rounds plus one, and returns every byte the source delivers before its final
error, together with that error unless it is `io.EOF`. -/
theorem io.ReadAllLoop_body (lib : CodecLib S) :
    ∀ (fuel : Nat) (b : List UInt8) (cap : Nat) (w : World S),
      b.length < cap → readCost w.body.pending < fuel →
      (io.ReadAllLoop lib .body fuel b cap w).map Prod.fst
        = some (b ++ w.body.pending.flatten,
            if w.body.final = io.EOF then none else some w.body.final) := by
  intro fuel
  induction fuel with
  | zero => intro b cap w _ h; exact absurd h (Nat.not_lt_zero _)
  | succ k ih =>
      intro b cap w hb hc
      obtain ⟨⟨pending, final, closeErr, reads, closes⟩, codec, sink, fs, cc⟩ := w
      rw [io.ReadAllLoop]
      cases pending with
      | nil => simp [Stream.Read, RawSource.Read]
      | cons c rest =>
          simp only [readCost_cons] at hc
          by_cases hle : c.length ≤ cap - b.length
          · simp only [Stream.Read, RawSource.Read, hle, if_true]
            rw [ih]
            · simp
            · simp only [List.length_append]
              split_ifs <;> omega
            · simp only
              omega
          · simp only [Stream.Read, RawSource.Read, hle, if_false]
            rw [ih]
            · simp only [List.flatten_cons]
              rw [List.append_assoc, ← List.append_assoc (c.take _), List.take_append_drop]
            · simp only [List.length_append, List.length_take]
              split_ifs <;> omega
            · simp only [readCost_cons, List.length_drop]
              omega

/-- The two pass-through identifiers return the raw source itself. -/
theorem ReaderFromReader_identity (lib : CodecLib S) (s : String) (w : World S)
    (hs : s = "" ∨ s = "identity") : ReaderFromReader lib s w = (.ok .body, w) := by
  rcases hs with h | h <;> subst h <;> simp [ReaderFromReader]

/-- Claim C2: when the `Content-Encoding` header is absent, empty or equal to
`"identity"`, `Reader` returns the body handle of the response itself with a
nil error and touches nothing; reading from the result is reading from the
body, so reading it to the end gives the bytes of the body in order; and
`ReaderFromReader` on `""` and on `"identity"` returns `(body, nil)`. -/
theorem C2_identity_returns_body (lib : CodecLib S) (response : Response) (w : World S)
    (h : response.Header.lookup "Content-Encoding" = none
      ∨ response.Header.lookup "Content-Encoding" = some []
      ∨ (∃ vs, response.Header.lookup "Content-Encoding" = some ("" :: vs))
      ∨ (∃ vs, response.Header.lookup "Content-Encoding" = some ("identity" :: vs))) :
    Reader lib response w = (.ok .body, w) ∧
    (∀ (n : Nat) (v : World S),
      Stream.Read lib n v .body = ((v.body.Read n).1, { v with body := (v.body.Read n).2 })) ∧
    (∀ fuel : Nat, readCost w.body.pending < fuel →
      (io.ReadAll lib fuel .body w).map Prod.fst
        = some (w.body.pending.flatten,
            if w.body.final = io.EOF then none else some w.body.final)) ∧
    ReaderFromReader lib "" w = (.ok .body, w) ∧
    ReaderFromReader lib "identity" w = (.ok .body, w) := by
  refine ⟨?_, fun n v => rfl, fun fuel hfuel => ?_,
    ReaderFromReader_identity lib _ w (Or.inl rfl),
    ReaderFromReader_identity lib _ w (Or.inr rfl)⟩
  swap
  · have := io.ReadAllLoop_body lib fuel [] 512 w (by simp) hfuel
    simpa [io.ReadAll] using this
  unfold Reader
  apply ReaderFromReader_identity
  rcases h with h | h | ⟨vs, h⟩ | ⟨vs, h⟩ <;> simp [Header.Get, h]

/-- Witness for C2: a response without any header, over a body of three bytes. -/
theorem C2_identity_returns_body_witness :
    Reader sampleLib { Header := [] } (sampleWorld [[1, 2, 3]] io.EOF)
      = (.ok .body, sampleWorld [[1, 2, 3]] io.EOF) :=
  (C2_identity_returns_body sampleLib { Header := [] } (sampleWorld [[1, 2, 3]] io.EOF)
    (Or.inl rfl)).1

/-- Counterexample to C3: `"zlib"` is a token of `ACCEPT_ENCODING`, yet over a
body whose first read fails with an `UnsupportedContentEncodingError` the zlib
constructor hands that error on and `ReaderFromReader` answers with it. -/
theorem C3_counterexample_zlib_relays_body_error :
    "zlib" ∈ tokens ACCEPT_ENCODING ∧ "zlib" ≠ "" ∧ "zlib" ≠ "identity" ∧
    (ReaderFromReader sampleLib "zlib"
        (sampleWorld [] (.UnsupportedContentEncodingError "chunked"))).1
      = .error (.UnsupportedContentEncodingError "chunked") :=
  ⟨by decide, by decide, by decide, rfl⟩

/-- Claim C3, amended: `ACCEPT_ENCODING` is
`"gzip, deflate, br, zstd, snappy, zlib, lz4"`; split at `", "` it gives seven
distinct tokens; and a string other than `""` and `"identity"` is one of them
exactly when every `UnsupportedContentEncodingError` that `ReaderFromReader`
answers it with is the error the codec constructor itself returned, never one
`ReaderFromReader` built for the identifier (for `deflate`, `br`, `snappy`
and `lz4` there is none at all). -/
theorem C3_accept_encoding_in_sync (lib : CodecLib S) (w : World S) :
    ACCEPT_ENCODING = "gzip, deflate, br, zstd, snappy, zlib, lz4" ∧
    tokens ACCEPT_ENCODING = ["gzip", "deflate", "br", "zstd", "snappy", "zlib", "lz4"] ∧
    (tokens ACCEPT_ENCODING).length = 7 ∧
    (tokens ACCEPT_ENCODING).Nodup ∧
    (∀ s : String, s ≠ "" → s ≠ "identity" →
      (s ∈ tokens ACCEPT_ENCODING ↔
        ∀ t, (ReaderFromReader lib s w).1 = .error (.UnsupportedContentEncodingError t) →
          constructorError lib s w = some (.UnsupportedContentEncodingError t))) ∧
    (∀ s : String, s ∈ ["deflate", "br", "snappy", "lz4"] →
      ∀ t, (ReaderFromReader lib s w).1 ≠ .error (.UnsupportedContentEncodingError t)) := by
  have ht : tokens ACCEPT_ENCODING
      = ["gzip", "deflate", "br", "zstd", "snappy", "zlib", "lz4"] := by decide
  refine ⟨rfl, ht, by rw [ht]; rfl, by rw [ht]; decide,
    fun s h1 h2 => ⟨fun hs t => ?_, fun hs => ?_⟩, fun s hs t => ?_⟩
  · refine (ReaderFromReader_error_of_accepted lib s w ?_ _).1
    rw [ht] at hs
    simp only [List.mem_cons, List.mem_singleton, List.not_mem_nil, or_false] at hs
    simp only [acceptedTokens, List.mem_cons, List.mem_singleton, List.not_mem_nil, or_false]
    tauto
  · by_contra hn
    have hna : s ∉ acceptedTokens := by
      rw [ht] at hn
      simp only [List.mem_cons, List.mem_singleton, List.not_mem_nil, or_false] at hn
      simp only [acceptedTokens, List.mem_cons, List.mem_singleton, List.not_mem_nil, or_false]
      tauto
    have := hs s (by rw [ReaderFromReader_of_not_accepted lib s w hna])
    rw [constructorError_of_not_accepted lib s w hna] at this
    exact Option.noConfusion this
  · simp only [List.mem_cons, List.mem_singleton, List.not_mem_nil, or_false] at hs
    rcases hs with h | h | h | h <;> subst h <;> simp [ReaderFromReader]

/-- Witness for C3 as amended: `"br"` is a token, and no
`UnsupportedContentEncodingError` comes back for it. -/
theorem C3_accept_encoding_in_sync_witness :
    ("br" ∈ tokens ACCEPT_ENCODING ↔
      ∀ t, (ReaderFromReader sampleLib "br" (sampleWorld [] io.EOF)).1
          = .error (.UnsupportedContentEncodingError t) →
        constructorError sampleLib "br" (sampleWorld [] io.EOF)
          = some (.UnsupportedContentEncodingError t)) ∧
    ∀ t, (ReaderFromReader sampleLib "br" (sampleWorld [] io.EOF)).1
      ≠ .error (.UnsupportedContentEncodingError t) :=
  ⟨(C3_accept_encoding_in_sync sampleLib (sampleWorld [] io.EOF)).2.2.2.2.1 "br"
    (by decide) (by decide),
   (C3_accept_encoding_in_sync sampleLib (sampleWorld [] io.EOF)).2.2.2.2.2 "br" (by decide)⟩

/-- Claim C6: when the constructor of gzip, zlib or zstd fails with `e`,
`ReaderFromReader` returns no stream and exactly `e`, unchanged, so an `e` that
is not an `UnsupportedContentEncodingError` is never turned into one; for
deflate, snappy, br and lz4 it always returns a stream and a nil error. -/
theorem C6_constructor_errors_pass_through (lib : CodecLib S) (w : World S) :
    (∀ e, (lib.gzipNewReader w.codec w.body).1 = some e →
      (ReaderFromReader lib "gzip" w).1 = .error e) ∧
    (∀ e, (lib.zlibNewReader w.codec w.body).1 = some e →
      (ReaderFromReader lib "zlib" w).1 = .error e) ∧
    (∀ e, (lib.zstdNewReader w.codec w.body).1 = some e →
      (ReaderFromReader lib "zstd" w).1 = .error e) ∧
    (∀ e t, Error.foreign e ≠ .UnsupportedContentEncodingError t) ∧
    (∀ s e, s ∈ ["gzip", "zlib", "zstd"] → constructorError lib s w = some e →
      ∀ t, e ≠ .UnsupportedContentEncodingError t →
        (ReaderFromReader lib s w).1 ≠ .error (.UnsupportedContentEncodingError t)) ∧
    (ReaderFromReader lib "deflate" w).1 = .ok (.codec .flate) ∧
    (ReaderFromReader lib "snappy" w).1 = .ok (.nopCloser .snappy) ∧
    (ReaderFromReader lib "br" w).1 = .ok (.nopCloser .brotli) ∧
    (ReaderFromReader lib "lz4" w).1 = .ok (.nopCloser .lz4) := by
  refine ⟨fun e he => ?_, fun e he => ?_, fun e he => ?_, fun e t h => Error.noConfusion h,
    fun s e hs he t hne h => ?_,
    by simp [ReaderFromReader], by simp [ReaderFromReader], by simp [ReaderFromReader],
    by simp [ReaderFromReader]⟩
  rotate_left 3
  · have hacc : s ∈ acceptedTokens := by
      simp only [List.mem_cons, List.mem_singleton, List.not_mem_nil, or_false] at hs
      rcases hs with h | h | h <;> subst h <;> decide
    have := (ReaderFromReader_error_of_accepted lib s w hacc _).1 h
    rw [he] at this
    exact hne (Option.some.inj this)
  · rcases hg : lib.gzipNewReader w.codec w.body with ⟨_ | e1, c, b⟩ <;>
      simp_all [ReaderFromReader]
  · rcases hg : lib.zlibNewReader w.codec w.body with ⟨_ | e1, c, b⟩ <;>
      simp_all [ReaderFromReader]
  · rcases hg : lib.zstdNewReader w.codec w.body with ⟨_ | e1, c, b⟩ <;>
      simp_all [ReaderFromReader]

/-- Witness for C6: a body that does not start with the gzip magic number. -/
theorem C6_constructor_errors_pass_through_witness :
    (ReaderFromReader sampleLib "gzip" (sampleWorld [[1, 2, 3]] io.EOF)).1
      = .error (.foreign (.other "gzip: invalid header")) :=
  (C6_constructor_errors_pass_through sampleLib (sampleWorld [[1, 2, 3]] io.EOF)).1
    (.foreign (.other "gzip: invalid header")) (by decide)

/-- Claim C9: on an identifier outside the nine accepted tokens
`ReaderFromReader`, and with it `Reader`, `ReadAll` and `ReadIntoWriter` on a
response carrying that header, fail with the unsupported-encoding error and
leave the world, the raw source included, exactly as it was: no read, no
close. -/
theorem C9_unsupported_leaves_raw_source_untouched (lib : CodecLib S) (fuel : Nat)
    (response : Response) (writer : Writer) (w : World S) (s : String)
    (hs : s ∉ acceptedTokens) (hh : response.Header.Get "Content-Encoding" = s) :
    ReaderFromReader lib s w = (.error (.UnsupportedContentEncodingError s), w) ∧
    Reader lib response w = (.error (.UnsupportedContentEncodingError s), w) ∧
    ReadAll lib fuel response w = some (([], some (.UnsupportedContentEncodingError s)), w) ∧
    ReadIntoWriter lib fuel response writer w
      = some (some (.UnsupportedContentEncodingError s), w) ∧
    (ReaderFromReader lib s w).2.body.reads = w.body.reads ∧
    (ReaderFromReader lib s w).2.body.closes = w.body.closes := by
  have h1 := ReaderFromReader_of_not_accepted lib s w hs
  have h2 : Reader lib response w = (.error (.UnsupportedContentEncodingError s), w) := by
    rw [Reader, hh, h1]
  refine ⟨h1, h2, ?_, ?_, by rw [h1], by rw [h1]⟩
  · simp [ReadAll, h2]
  · simp [ReadIntoWriter, h2]

/-- Witness for C9: the identifier `"bogus"` over a body that has data. -/
theorem C9_unsupported_leaves_raw_source_untouched_witness :
    ReadAll sampleLib 5 (sampleResponse "bogus") (sampleWorld [[1, 2, 3]] io.EOF)
      = some (([], some (.UnsupportedContentEncodingError "bogus")),
          sampleWorld [[1, 2, 3]] io.EOF) :=
  (C9_unsupported_leaves_raw_source_untouched sampleLib 5 (sampleResponse "bogus") .sink
    (sampleWorld [[1, 2, 3]] io.EOF) "bogus" (by decide) (by decide)).2.2.1

/-! ## Closing the decoded stream -/

/-- Counterexample to C4: for `"snappy"` the returned stream is `io.NopCloser`
around the codec reader, and closing it leaves the close count of the raw
source at 0; for `"gzip"`, over a body that starts with the gzip magic number,
the returned stream is the gzip reader, whose `Close` does not close the
reader it wraps, and the close count stays at 0 as well. -/
theorem C4_counterexample_close_leaves_raw_source_open :
    (ReaderFromReader sampleLib "snappy" (sampleWorld [[1, 2, 3]] io.EOF)
        = (.ok (.nopCloser .snappy), sampleWorld [[1, 2, 3]] io.EOF) ∧
      (sampleWorld [[1, 2, 3]] io.EOF).body.closes = 0 ∧
      (Stream.Close sampleLib (sampleWorld [[1, 2, 3]] io.EOF)
        (.nopCloser .snappy)).2.body.closes ≠ 1) ∧
    ((ReaderFromReader sampleLib "gzip" (sampleWorld [[0x1f, 0x8b], [7]] io.EOF)).1
        = .ok (.codec .gzip) ∧
      (ReaderFromReader sampleLib "gzip"
        (sampleWorld [[0x1f, 0x8b], [7]] io.EOF)).2.body.closes = 0 ∧
      (Stream.Close sampleLib
        (ReaderFromReader sampleLib "gzip" (sampleWorld [[0x1f, 0x8b], [7]] io.EOF)).2
        (.codec .gzip)).2.body.closes ≠ 1) :=
  ⟨⟨rfl, rfl, by decide⟩, ⟨rfl, by decide, by decide⟩⟩

/-- What `Close` does on the reader of codec `c` returned as it is: the `Close`
method of that reader runs once, on the codec state and the raw source, and
its error is the result. -/
theorem Stream.Close_codec (lib : CodecLib S) (w : World S) (c : Codec) :
    Stream.Close lib w (.codec c)
      = ((lib.close c w.codec w.body).1,
          { w with codec := (lib.close c w.codec w.body).2.1,
                   body := (lib.close c w.codec w.body).2.2,
                   closeCalls := w.closeCalls + 1 }) := rfl

/-- What `Close` does on `io.NopCloser` around the reader of codec `c`: it
returns nil, and neither the codec reader nor the raw source is touched. -/
theorem Stream.Close_nopCloser (lib : CodecLib S) (w : World S) (c : Codec) :
    Stream.Close lib w (.nopCloser c) = (none, { w with closeCalls := w.closeCalls + 1 }) := rfl

/-- Claim C4, amended: when `ReaderFromReader` succeeds, one `Close` on the
returned stream closes the raw source exactly once for `""` and `"identity"`
(the stream is the raw source).  For zstd, snappy, br and lz4 the stream is
`io.NopCloser` around the reader of that codec: `Close` returns nil and leaves
the raw source and the codec reader as they are, close count included.  For
gzip, deflate and zlib the stream is the reader of that very codec and `Close`
is one call of its `Close` method: the raw source ends up as that method
leaves it, so its close count stays where it was whenever that method does
not close the reader it wraps. -/
theorem C4_close_effect_on_raw_source (lib : CodecLib S) (s : String) (w w1 : World S)
    (r : Stream) (h : ReaderFromReader lib s w = (.ok r, w1)) :
    ((s = "" ∨ s = "identity") →
      r = .body ∧ w1 = w ∧ (r.Close lib w1).1 = w.body.closeErr ∧
      (r.Close lib w1).2.body.closes = w.body.closes + 1 ∧
      (r.Close lib w1).2.body.pending = w.body.pending) ∧
    (∀ c, (s, c) ∈ [("zstd", Codec.zstd), ("snappy", Codec.snappy), ("br", Codec.brotli),
        ("lz4", Codec.lz4)] →
      r = .nopCloser c ∧ (r.Close lib w1).1 = none ∧ (r.Close lib w1).2.body = w1.body ∧
      (r.Close lib w1).2.codec = w1.codec ∧
      (r.Close lib w1).2.body.closes = w1.body.closes) ∧
    (∀ c, (s, c) ∈ [("gzip", Codec.gzip), ("deflate", Codec.flate), ("zlib", Codec.zlib)] →
      r = .codec c ∧
      r.Close lib w1
        = ((lib.close c w1.codec w1.body).1,
            { w1 with codec := (lib.close c w1.codec w1.body).2.1,
                      body := (lib.close c w1.codec w1.body).2.2,
                      closeCalls := w1.closeCalls + 1 }) ∧
      ((lib.close c w1.codec w1.body).2.2.closes = w1.body.closes →
        (r.Close lib w1).2.body.closes = w1.body.closes)) := by
  refine ⟨fun hs => ?_, fun c hs => ?_, fun c hs => ?_⟩
  · rw [ReaderFromReader_identity lib s w hs] at h
    simp only [Prod.mk.injEq, Except.ok.injEq] at h
    obtain ⟨hr, hw⟩ := h
    subst hr hw
    exact ⟨rfl, rfl, rfl, rfl, rfl⟩
  · have hr : r = .nopCloser c := by
      simp only [List.mem_cons, List.mem_singleton, List.not_mem_nil, or_false,
        Prod.mk.injEq] at hs
      rcases hs with ⟨hs, hc⟩ | ⟨hs, hc⟩ | ⟨hs, hc⟩ | ⟨hs, hc⟩ <;> subst hs hc
      · rcases hg : lib.zstdNewReader w.codec w.body with ⟨_ | e, c, b⟩ <;>
          simp [ReaderFromReader, hg] at h
        exact h.1.symm
      all_goals
        simp [ReaderFromReader] at h
        exact h.1.symm
    subst hr
    exact ⟨rfl, rfl, rfl, rfl, rfl⟩
  · have hr : r = .codec c := by
      simp only [List.mem_cons, List.mem_singleton, List.not_mem_nil, or_false,
        Prod.mk.injEq] at hs
      rcases hs with ⟨hs, hc⟩ | ⟨hs, hc⟩ | ⟨hs, hc⟩ <;> subst hs hc
      · rcases hg : lib.gzipNewReader w.codec w.body with ⟨_ | e, c, b⟩ <;>
          simp [ReaderFromReader, hg] at h
        exact h.1.symm
      · simp [ReaderFromReader] at h
        exact h.1.symm
      · rcases hg : lib.zlibNewReader w.codec w.body with ⟨_ | e, c, b⟩ <;>
          simp [ReaderFromReader, hg] at h
        exact h.1.symm
    subst hr
    refine ⟨rfl, Stream.Close_codec lib w1 c, fun hc => ?_⟩
    rw [Stream.Close_codec]
    exact hc

/-- Witness for C4 as amended: the identity stream over a body of three bytes,
and the gzip stream over a body that starts with the gzip magic number. -/
theorem C4_close_effect_on_raw_source_witness :
    (Stream.Close sampleLib (sampleWorld [[1, 2, 3]] io.EOF) .body).2.body.closes = 0 + 1 ∧
    (Stream.Close sampleLib
        (ReaderFromReader sampleLib "gzip" (sampleWorld [[0x1f, 0x8b], [7]] io.EOF)).2
        (.codec .gzip)).2.body.closes
      = (ReaderFromReader sampleLib "gzip"
          (sampleWorld [[0x1f, 0x8b], [7]] io.EOF)).2.body.closes :=
  ⟨((C4_close_effect_on_raw_source sampleLib "identity" (sampleWorld [[1, 2, 3]] io.EOF)
      (sampleWorld [[1, 2, 3]] io.EOF) .body rfl).1 (Or.inr rfl)).2.2.2.1,
   ((C4_close_effect_on_raw_source sampleLib "gzip" (sampleWorld [[0x1f, 0x8b], [7]] io.EOF)
      _ (.codec .gzip) rfl).2.2 .gzip (by decide)).2.2 rfl⟩

/-! ## What reads, writes and the loops leave alone -/

/-- A read on a stream changes neither the close counter of decoded streams,
nor the file system, nor the sink. -/
theorem Stream.Read_frame (lib : CodecLib S) (n : Nat) (w : World S) (r : Stream) :
    (r.Read lib n w).2.closeCalls = w.closeCalls ∧ (r.Read lib n w).2.fs = w.fs ∧
      (r.Read lib n w).2.sink = w.sink := by
  cases r <;> exact ⟨rfl, rfl, rfl⟩

/-- A close on a stream counts once and leaves the file system alone. -/
theorem Stream.Close_frame (lib : CodecLib S) (w : World S) (r : Stream) :
    (r.Close lib w).2.closeCalls = w.closeCalls + 1 ∧ (r.Close lib w).2.fs = w.fs := by
  cases r <;> exact ⟨rfl, rfl⟩

/-- A write on the file handle does not change its close counter. -/
theorem FileSystem.Write_closes (p : List UInt8) (fs : FileSystem) :
    (fs.Write p).2.closes = fs.closes := by
  unfold FileSystem.Write
  split
  · rfl
  · split
    · rfl
    · split <;> rfl

/-- A write changes neither the close counter of decoded streams nor the close
counter of the file handle. -/
theorem Writer.Write_frame (p : List UInt8) (w : World S) (dst : Writer) :
    (dst.Write p w).2.closeCalls = w.closeCalls ∧ (dst.Write p w).2.fs.closes = w.fs.closes := by
  cases dst
  · exact ⟨rfl, rfl⟩
  · exact ⟨rfl, FileSystem.Write_closes p w.fs⟩

/-- The write half of a copy round keeps both close counters. -/
theorem io.copyWrite_frame (dst : Writer) (p : List UInt8) (w : World S) :
    (io.copyWrite dst p w).2.2.closeCalls = w.closeCalls ∧
      (io.copyWrite dst p w).2.2.fs.closes = w.fs.closes := by
  have hw := Writer.Write_frame p w dst
  unfold io.copyWrite
  split
  · rcases hd : dst.Write p w with ⟨⟨nw, ew⟩, w2⟩
    rw [hd] at hw
    simp only
    split
    · exact hw
    · split_ifs <;> exact hw
  · exact ⟨rfl, rfl⟩

/-- `ReaderFromReader` changes neither close counter nor the file system. -/
theorem ReaderFromReader_frame (lib : CodecLib S) (s : String) (w : World S) :
    (ReaderFromReader lib s w).2.closeCalls = w.closeCalls ∧
      (ReaderFromReader lib s w).2.fs = w.fs := by
  unfold ReaderFromReader
  split_ifs
  · rcases lib.gzipNewReader w.codec w.body with ⟨_ | e, c, b⟩ <;> exact ⟨rfl, rfl⟩
  · exact ⟨rfl, rfl⟩
  · rcases lib.zlibNewReader w.codec w.body with ⟨_ | e, c, b⟩ <;> exact ⟨rfl, rfl⟩
  · rcases lib.zstdNewReader w.codec w.body with ⟨_ | e, c, b⟩ <;> exact ⟨rfl, rfl⟩
  · exact ⟨rfl, rfl⟩
  · exact ⟨rfl, rfl⟩
  · exact ⟨rfl, rfl⟩
  · exact ⟨rfl, rfl⟩
  · exact ⟨rfl, rfl⟩

/-- The loop of `io.ReadAll` never closes anything. -/
theorem io.ReadAllLoop_frame (lib : CodecLib S) (r : Stream) :
    ∀ (fuel : Nat) (b : List UInt8) (cap : Nat) (w : World S)
      (res : List UInt8 × Option Error) (v : World S),
      io.ReadAllLoop lib r fuel b cap w = some (res, v) → v.closeCalls = w.closeCalls := by
  intro fuel
  induction fuel with
  | zero => intro b cap w res v h; simp [io.ReadAllLoop] at h
  | succ k ih =>
      intro b cap w res v h
      have hr := (Stream.Read_frame lib (cap - b.length) w r).1
      rw [io.ReadAllLoop] at h
      rcases hread : r.Read lib (cap - b.length) w with ⟨⟨p, _ | err⟩, w1⟩
      · rw [hread] at h hr
        simp only at h hr
        rw [ih _ _ _ _ _ h, hr]
      · rw [hread] at h hr
        simp only [Option.some.injEq, Prod.mk.injEq] at h hr
        rw [← h.2, hr]

/-- The copy loop never closes anything. -/
theorem io.CopyBufferLoop_frame (lib : CodecLib S) (dst : Writer) (src : Stream) (n : Nat) :
    ∀ (fuel written : Nat) (w : World S) (res : Nat × Option Error) (v : World S),
      io.CopyBufferLoop lib dst src n fuel written w = some (res, v) →
      v.closeCalls = w.closeCalls ∧ v.fs.closes = w.fs.closes := by
  intro fuel
  induction fuel with
  | zero => intro written w res v h; simp [io.CopyBufferLoop] at h
  | succ k ih =>
      intro written w res v h
      have hr := Stream.Read_frame lib n w src
      rw [io.CopyBufferLoop] at h
      rcases hread : src.Read lib n w with ⟨⟨p, er⟩, w1⟩
      rw [hread] at h hr
      simp only at h hr
      have hc := io.copyWrite_frame dst p w1
      rcases hstep : io.copyWrite dst p w1 with ⟨_ | e, nw, w2⟩
      · rw [hstep] at h hc
        simp only at h hc
        cases er with
        | none =>
            simp only at h
            have := ih _ _ _ _ h
            rw [this.1, this.2, hc.1, hc.2, hr.1, hr.2.1]
            exact ⟨rfl, rfl⟩
        | some e =>
            simp only [Option.some.injEq, Prod.mk.injEq] at h
            rw [← h.2, hc.1, hc.2, hr.1, hr.2.1]
            exact ⟨rfl, rfl⟩
      · rw [hstep] at h hc
        simp only [Option.some.injEq, Prod.mk.injEq] at h hc
        rw [← h.2, hc.1, hc.2, hr.1, hr.2.1]
        exact ⟨rfl, rfl⟩

/-! ## The helpers release what they acquire -/

/-- Claim C7: when `Reader` succeeds, `ReadAll` and `ReadIntoWriter` return
exactly when their read or copy loop returns, with the values of the loop, and
on each such return (normal end, failed read, failed write) the decoded stream
has been closed exactly once, after the loop; when `Reader` fails they return
its error and close nothing. -/
theorem C7_helpers_close_exactly_once (lib : CodecLib S) (fuel : Nat) (response : Response)
    (writer : Writer) (w : World S) :
    (∀ r w1, Reader lib response w = (.ok r, w1) →
      ReadAll lib fuel response w
        = (io.ReadAll lib fuel r w1).map (fun x => (x.1, (r.Close lib x.2).2)) ∧
      (ReadAll lib fuel response w).map (fun x => x.2.closeCalls)
        = (io.ReadAll lib fuel r w1).map (fun _ => w.closeCalls + 1) ∧
      ReadIntoWriter lib fuel response writer w
        = (io.CopyBuffer lib fuel writer r (1024 * 64) w1).map
            (fun x => (x.1.2, (r.Close lib x.2).2)) ∧
      (ReadIntoWriter lib fuel response writer w).map (fun x => x.2.closeCalls)
        = (io.CopyBuffer lib fuel writer r (1024 * 64) w1).map (fun _ => w.closeCalls + 1)) ∧
    (∀ e w1, Reader lib response w = (.error e, w1) →
      ReadAll lib fuel response w = some (([], some e), w1) ∧
      ReadIntoWriter lib fuel response writer w = some (some e, w1) ∧
      w1.closeCalls = w.closeCalls) := by
  have hf := (ReaderFromReader_frame lib (response.Header.Get "Content-Encoding") w).1
  refine ⟨fun r w1 h => ?_, fun e w1 h => ?_⟩
  · have hw1 : w1.closeCalls = w.closeCalls := by
      unfold Reader at h
      rw [h] at hf
      exact hf
    have hA : ReadAll lib fuel response w
        = (io.ReadAll lib fuel r w1).map (fun x => (x.1, (r.Close lib x.2).2)) := by
      unfold ReadAll
      rw [h]
      dsimp only
      cases io.ReadAll lib fuel r w1 <;> rfl
    have hW : ReadIntoWriter lib fuel response writer w
        = (io.CopyBuffer lib fuel writer r (1024 * 64) w1).map
            (fun x => (x.1.2, (r.Close lib x.2).2)) := by
      unfold ReadIntoWriter
      rw [h]
      dsimp only
      cases io.CopyBuffer lib fuel writer r (1024 * 64) w1 <;> rfl
    refine ⟨hA, ?_, hW, ?_⟩
    · rw [hA]
      cases hl : io.ReadAll lib fuel r w1 with
      | none => rfl
      | some x =>
          have := io.ReadAllLoop_frame lib r fuel [] 512 w1 x.1 x.2 hl
          simp [(Stream.Close_frame lib x.2 r).1, this, hw1]
    · rw [hW]
      cases hl : io.CopyBuffer lib fuel writer r (1024 * 64) w1 with
      | none => rfl
      | some x =>
          have := (io.CopyBufferLoop_frame lib writer r (1024 * 64) fuel 0 w1 x.1 x.2 hl).1
          simp [(Stream.Close_frame lib x.2 r).1, this, hw1]
  · refine ⟨by simp [ReadAll, h], by simp [ReadIntoWriter, h], ?_⟩
    unfold Reader at h
    rw [h] at hf
    exact hf

/-- Witness for C7: a read that ends normally, a read that fails after two
bytes, and a copy whose sink fails after one byte; each closes the decoded
stream once. -/
theorem C7_helpers_close_exactly_once_witness :
    (ReadAll sampleLib 5 (sampleResponse "identity") (sampleWorld [[1, 2]] io.EOF)).map
        (fun x => x.2.closeCalls) = some 1 ∧
    (ReadAll sampleLib 5 (sampleResponse "gzip")
        (sampleWorld [[0x1f, 0x8b], [7, 8]] (.foreign (.other "reset")))).map
        (fun x => (x.1, x.2.closeCalls))
      = some (([7, 8], some (.foreign (.other "reset"))), 1) ∧
    (ReadIntoWriter sampleLib 5 (sampleResponse "snappy") .sink
        (sampleWorldFullSink [[1, 2]] io.EOF)).map (fun x => (x.1, x.2.closeCalls))
      = some (some (.foreign (.other "sink full")), 1) :=
  ⟨((C7_helpers_close_exactly_once sampleLib 5 (sampleResponse "identity") .sink
      (sampleWorld [[1, 2]] io.EOF)).1 .body _ rfl).2.1.trans rfl,
   by decide,
   by decide⟩

/-! ## Writing into a file -/

/-- On a response whose identifier is not accepted, `ReadIntoWriter` returns the
unsupported-encoding error and leaves the world as it was. -/
theorem ReadIntoWriter_of_not_accepted (lib : CodecLib S) (fuel : Nat) (response : Response)
    (writer : Writer) (w : World S)
    (hs : response.Header.Get "Content-Encoding" ∉ acceptedTokens) :
    ReadIntoWriter lib fuel response writer w
      = some (some (.UnsupportedContentEncodingError
          (response.Header.Get "Content-Encoding")), w) := by
  simp [ReadIntoWriter, Reader, ReaderFromReader_of_not_accepted lib _ w hs]

/-- After `setFile` the file at `name` is the one just put there. -/
theorem lookup_setFile (name : String) (f : FileData) (l : List (String × FileData)) :
    (setFile name f l).lookup name = some f := by
  induction l with
  | nil => simp [setFile, List.lookup]
  | cons kv rest ih =>
      obtain ⟨k, v⟩ := kv
      unfold setFile
      split_ifs with hk
      · simp [List.lookup]
      · have hne : (name == k) = false := by
          simp only [beq_eq_false_iff_ne, ne_eq]
          exact fun h => hk h.symm
        simp [List.lookup, hne, ih]

/-- A failed `os.OpenFile` leaves the file system as it was. -/
theorem os.OpenFile_error (name : String) (perm : Nat) (fs fs1 : FileSystem) (e : Error)
    (h : os.OpenFile name perm fs = (some e, fs1)) : fs1 = fs := by
  unfold os.OpenFile at h
  split at h
  · simp only [Prod.mk.injEq] at h
    exact h.2.symm
  · simp at h

/-- A successful `os.OpenFile` leaves an empty file at the path, behind a
handle that has not been closed. -/
theorem os.OpenFile_ok (name : String) (perm : Nat) (fs fs1 : FileSystem)
    (h : os.OpenFile name perm fs = (none, fs1)) :
    (fs1.files.lookup name).map FileData.data = some [] ∧ fs1.closes = 0 ∧
      fs1.handle = some name := by
  unfold os.OpenFile at h
  split at h
  · simp at h
  · simp only [Prod.mk.injEq, true_and] at h
    subst h
    simp [lookup_setFile]

/-- Whatever `ReadIntoWriter` returns, it has not closed the file handle. -/
theorem ReadIntoWriter_fs_closes (lib : CodecLib S) (fuel : Nat) (response : Response)
    (writer : Writer) (w v : World S) (err : Option Error)
    (h : ReadIntoWriter lib fuel response writer w = some (err, v)) :
    v.fs.closes = w.fs.closes := by
  have hf := (ReaderFromReader_frame lib (response.Header.Get "Content-Encoding") w).2
  unfold ReadIntoWriter Reader at h
  rcases hr : ReaderFromReader lib (response.Header.Get "Content-Encoding") w with ⟨_ | r, w1⟩
  · rw [hr] at h hf
    simp only [Option.some.injEq, Prod.mk.injEq] at h hf
    rw [← h.2, hf]
  · rw [hr] at h hf
    dsimp only at h hf
    cases hl : io.CopyBuffer lib fuel writer r (1024 * 64) w1 with
    | none => rw [hl] at h; simp at h
    | some x =>
        rw [hl] at h
        simp only [Option.some.injEq, Prod.mk.injEq] at h
        have hc := (io.CopyBufferLoop_frame lib writer r (1024 * 64) fuel 0 w1 x.1 x.2 hl).2
        rw [← h.2, (Stream.Close_frame lib x.2 r).2, hc, hf]

/-- Claim C8: if opening the file fails with `e`, `ReadIntoFile` returns exactly
`e` whatever the response is and leaves the world (the body with it) as it
was; otherwise it returns exactly when `ReadIntoWriter` on the response and
the opened file returns, with the same result, and the file handle has then
been closed exactly once. -/
theorem C8_ReadIntoFile_open_then_copy (lib : CodecLib S) (fuel : Nat) (response : Response)
    (filename : String) (perm : Nat) (w : World S) :
    (∀ e fs, os.OpenFile filename perm w.fs = (some e, fs) →
      ∀ anyResponse : Response,
        ReadIntoFile lib fuel anyResponse filename perm w = some (some e, w)) ∧
    (∀ fs, os.OpenFile filename perm w.fs = (none, fs) →
      ReadIntoFile lib fuel response filename perm w
        = (ReadIntoWriter lib fuel response .file { w with fs := fs }).map
            (fun x => (x.1, { x.2 with fs := x.2.fs.Close.2 })) ∧
      (ReadIntoFile lib fuel response filename perm w).map (fun x => (x.1, x.2.fs.closes))
        = (ReadIntoWriter lib fuel response .file { w with fs := fs }).map
            (fun x => (x.1, 1))) := by
  refine ⟨fun e fs h anyResponse => ?_, fun fs h => ?_⟩
  · have hfs := os.OpenFile_error filename perm w.fs fs e h
    unfold ReadIntoFile
    rw [h, hfs]
  · have hA : ReadIntoFile lib fuel response filename perm w
        = (ReadIntoWriter lib fuel response .file { w with fs := fs }).map
            (fun x => (x.1, { x.2 with fs := x.2.fs.Close.2 })) := by
      unfold ReadIntoFile
      rw [h]
      dsimp only
      cases ReadIntoWriter lib fuel response .file { w with fs := fs } <;> rfl
    refine ⟨hA, ?_⟩
    rw [hA]
    cases hl : ReadIntoWriter lib fuel response .file { w with fs := fs } with
    | none => rfl
    | some x =>
        have hc := ReadIntoWriter_fs_closes lib fuel response .file _ x.2 x.1 hl
        have h0 := (os.OpenFile_ok filename perm w.fs fs h).2.1
        simp only [Option.map_some', Option.some.injEq, Prod.mk.injEq, true_and]
        show x.2.fs.closes + 1 = 1
        rw [hc]
        show fs.closes + 1 = 1
        rw [h0]

/-- Witness for C8: a path that cannot be opened, under a gzip response; and a
path that can, where the copy succeeds and the handle is closed once. -/
theorem C8_ReadIntoFile_open_then_copy_witness :
    ReadIntoFile sampleLib 5 (sampleResponse "gzip") "/forbidden" 0o644
        (sampleWorld [[1, 2, 3]] io.EOF)
      = some (some (.foreign (.other "permission denied")), sampleWorld [[1, 2, 3]] io.EOF) ∧
    (ReadIntoFile sampleLib 5 (sampleResponse "snappy") "new.bin" 0o600
        (sampleWorld [[1, 2, 3]] io.EOF)).map (fun x => (x.1, x.2.fs.closes))
      = some (none, 1) :=
  ⟨(C8_ReadIntoFile_open_then_copy sampleLib 5 (sampleResponse "gzip") "/forbidden" 0o644
      (sampleWorld [[1, 2, 3]] io.EOF)).1 (.foreign (.other "permission denied")) _ rfl
      (sampleResponse "gzip"),
   ((C8_ReadIntoFile_open_then_copy sampleLib 5 (sampleResponse "snappy") "new.bin" 0o600
      (sampleWorld [[1, 2, 3]] io.EOF)).2 _ rfl).2.trans rfl⟩

/-- Claim C10: for a response whose `Content-Encoding` is outside the nine
accepted tokens and a path that can be opened, `ReadIntoFile` returns the
unsupported-encoding error, yet the file at the path now exists with length
zero, whatever was there before, although nothing was read from the body. -/
theorem C10_ReadIntoFile_truncates_before_failing (lib : CodecLib S) (fuel : Nat)
    (response : Response) (filename : String) (perm : Nat) (w : World S)
    (hs : response.Header.Get "Content-Encoding" ∉ acceptedTokens)
    (ho : (os.OpenFile filename perm w.fs).1 = none) :
    ∃ v, ReadIntoFile lib fuel response filename perm w
        = some (some (.UnsupportedContentEncodingError
            (response.Header.Get "Content-Encoding")), v) ∧
      (v.fs.files.lookup filename).map FileData.data = some [] ∧
      v.body = w.body ∧ v.fs.closes = 1 := by
  rcases hopen : os.OpenFile filename perm w.fs with ⟨oe, fs⟩
  rw [hopen] at ho
  dsimp only at ho
  subst ho
  have hok := os.OpenFile_ok filename perm w.fs fs hopen
  have h9 := (ReadIntoWriter_of_not_accepted lib fuel response .file { w with fs := fs } hs)
  refine ⟨{ w with fs := fs.Close.2 }, ?_, ?_, rfl, ?_⟩
  · unfold ReadIntoFile
    rw [hopen]
    dsimp only
    rw [h9]
  · exact hok.1
  · show fs.closes + 1 = 1
    rw [hok.2.1]

/-- Witness for C10: `"old.bin"` held three bytes and is empty afterwards. -/
theorem C10_ReadIntoFile_truncates_before_failing_witness :
    (sampleFS.files.lookup "old.bin").map FileData.data = some [1, 2, 3] ∧
    ∃ v, ReadIntoFile sampleLib 5 (sampleResponse "bogus") "old.bin" 0o600
          (sampleWorld [[1, 2, 3]] io.EOF)
        = some (some (.UnsupportedContentEncodingError
            ((sampleResponse "bogus").Header.Get "Content-Encoding")), v) ∧
      (v.fs.files.lookup "old.bin").map FileData.data = some [] ∧
      v.body = (sampleWorld [[1, 2, 3]] io.EOF).body ∧ v.fs.closes = 1 :=
  ⟨by decide,
   C10_ReadIntoFile_truncates_before_failing sampleLib 5 (sampleResponse "bogus") "old.bin"
    0o600 (sampleWorld [[1, 2, 3]] io.EOF) (by decide) (by decide)⟩

/-! ## Reading everything -/

/-- Counterexample to C5: under `identity`, a body that delivers two bytes and
then fails makes `ReadAll` return the error together with those two bytes. -/
theorem C5_counterexample_bytes_returned_with_error :
    (ReadAll sampleLib 5 (sampleResponse "identity")
        (sampleWorld [[1, 2]] (.foreign (.other "connection reset")))).map Prod.fst
      = some ([1, 2], some (.foreign (.other "connection reset"))) ∧
    ([1, 2] : List UInt8) ≠ [] := by
  decide

/-- Claim C5, amended: when the error aborted the acquisition of the decoded
stream, `ReadAll` returns it with a nil slice; otherwise `ReadAll` returns the
two values of `io.ReadAll` unchanged, so an error in the middle of reading
comes with the bytes read before it: for an identity response, all the bytes
the body delivered before its error. -/
theorem C5_ReadAll_result_on_failure (lib : CodecLib S) (fuel : Nat) (response : Response)
    (w : World S) :
    (∀ e w1, Reader lib response w = (.error e, w1) →
      ReadAll lib fuel response w = some (([], some e), w1)) ∧
    (∀ r w1, Reader lib response w = (.ok r, w1) →
      (ReadAll lib fuel response w).map Prod.fst = (io.ReadAll lib fuel r w1).map Prod.fst) ∧
    ((response.Header.Get "Content-Encoding" = ""
        ∨ response.Header.Get "Content-Encoding" = "identity") →
      readCost w.body.pending < fuel →
      (ReadAll lib fuel response w).map Prod.fst
        = some (w.body.pending.flatten,
            if w.body.final = io.EOF then none else some w.body.final)) := by
  have hpass : ∀ r w1, Reader lib response w = (.ok r, w1) →
      (ReadAll lib fuel response w).map Prod.fst
        = (io.ReadAll lib fuel r w1).map Prod.fst := by
    intro r w1 h
    unfold ReadAll
    rw [h]
    dsimp only
    cases io.ReadAll lib fuel r w1 <;> rfl
  refine ⟨fun e w1 h => by simp [ReadAll, h], hpass, fun hid hfuel => ?_⟩
  have hr : Reader lib response w = (.ok .body, w) := by
    unfold Reader
    exact ReaderFromReader_identity lib _ w hid
  rw [hpass _ _ hr]
  have := io.ReadAllLoop_body lib fuel [] 512 w (by simp) hfuel
  simpa [io.ReadAll] using this

/-- Witness for C5 as amended: the identity response of the counterexample. -/
theorem C5_ReadAll_result_on_failure_witness :
    (ReadAll sampleLib 5 (sampleResponse "identity")
        (sampleWorld [[1, 2]] (.foreign (.other "connection reset")))).map Prod.fst
      = some ([[1, 2]].flatten,
          if (Error.foreign (.other "connection reset")) = io.EOF then none
          else some (.foreign (.other "connection reset"))) :=
  (C5_ReadAll_result_on_failure sampleLib 5 (sampleResponse "identity")
    (sampleWorld [[1, 2]] (.foreign (.other "connection reset")))).2.2 (Or.inr (by decide))
    (by decide)

end httpdecompressor
